import Mathlib

/-!
Verification of the vision_lang inference-and-commentary pipeline.

This development is a shallow embedding of the rate-limited description
request queue and fallback formatter of `src/utils/openai.ts`, the
`generateDetailedDescription` entry point, and the motion heuristics
(`detectSuddenMovement`, `detectAggressiveMotion`) of the object-detection
module.  JavaScript numbers backing the motion geometry are modelled as
rationals; millisecond timestamps and token counts, which are integral in
the source, are modelled as naturals.  JavaScript promises are modelled by
making resolution explicit: running the queue produces a trace of events
(dispatches, sleeps, resolutions), and a promise "resolves with s" exactly
when a resolution event with its task id and payload s appears in the trace.
-/

namespace VisionLang

/-! ## Scene data model (the argument type of generateDetailedDescription) -/

/-- The optional per-person `annotation` object `{ ageRange?, expression? }`. -/
structure PersonAnnot where
  ageRange : Option String
  expression : Option String
deriving DecidableEq

/-- One entry of `sceneData.people`.  The field `annot` models the source's
optional `annotation` field. -/
structure Person where
  pose : String
  position : String
  activity : String
  movement : String
  annot : Option PersonAnnot
deriving DecidableEq

/-- The `sceneData` argument of `generateDetailedDescription`.  `frame` and
`error` are optional strings; `isScenic` is an optional boolean whose JS
truthiness coincides with a plain `Bool` (absent = false). -/
structure SceneData where
  people : List Person
  objects : List String
  frame : Option String
  error : Option String
  isScenic : Bool
deriving DecidableEq

/-- JS truthiness of an optional string: `undefined` and `""` are falsy. -/
def strTruthy : Option String → Bool
  | none => false
  | some s => s ≠ ""

/-- JS `a || b` for an optional string `a` and default `b`:
yields `b` when `a` is `undefined` or `""`. -/
def orTruthy (a : Option String) (b : String) : String :=
  match a with
  | none => b
  | some s => if s = "" then b else s

/-! ## The fallback formatter generateBasicDescription -/

/-- The fixed sentence returned for a scenic scene. -/
def scenicSentence : String :=
  "This video shows a scenic view. The analysis system is focusing on the natural elements and landscape features of the scene."

/-- The fixed "no detection" sentence returned when neither people nor
objects were detected. -/
def noDetectionSentence : String :=
  "The scene is visible but no specific objects or people are detected. The video appears to show general scenery or environmental elements."

/-- The clause emitted for one person: the parts pushed for that person,
joined by `", "`, with a trailing period.  Mirrors the body of the
`sceneData.people.forEach` loop in `generateBasicDescription`. -/
def personClause (p : Person) : String :=
  let age := orTruthy (p.annot.bind PersonAnnot.ageRange) "unknown age"
  let expression := orTruthy (p.annot.bind PersonAnnot.expression) "neutral expression"
  let parts : List String :=
    ["A person (" ++ age ++ ", " ++ expression ++ ") is " ++ p.pose ++ " " ++ p.position]
    ++ (if p.movement ≠ "staying still" then ["they are " ++ p.movement] else [])
    ++ (if p.activity ≠ "" then ["while " ++ p.activity] else [])
  String.intercalate ", " parts ++ "."

/-- The sentence listing detected non-person objects, pushed when
`sceneData.objects.length > 0`. -/
def objectsSentence (objects : List String) : String :=
  "The scene contains " ++ String.intercalate ", " objects ++ "."

/-- `generateBasicDescription(sceneData)`: the local deterministic fallback
formatter of `src/utils/openai.ts`. -/
def generateBasicDescription (s : SceneData) : String :=
  if strTruthy s.error then s.error.getD ""
  else if s.isScenic then scenicSentence
  else if s.people.length = 0 ∧ s.objects.length = 0 then noDetectionSentence
  else
    let descriptions :=
      s.people.map personClause
      ++ (if s.objects.length > 0 then [objectsSentence s.objects] else [])
    (String.intercalate " " descriptions).trim

/-- Substring containment, used to state "contains ... verbatim". -/
def strContains (s sub : String) : Prop := sub.data <:+: s.data

instance (s sub : String) : Decidable (strContains s sub) := by
  unfold strContains; infer_instance

/-! ## The RATE_LIMIT configuration constants -/

def RATE_LIMIT.tokensPerMin : ℕ := 30000
def RATE_LIMIT.maxBackoff : ℕ := 60000
def RATE_LIMIT.maxRetries : ℕ := 3
def RATE_LIMIT.resetInterval : ℕ := 60000

/-! ## Errors and task behaviours

A JS error object as inspected by `processQueue`: the optional chains
`error.error?.type` and `error.error?.code`, and `error.message`. -/

structure JsError where
  errType : Option String
  errCode : Option String
  msg : String
deriving DecidableEq

/-- The rate-limit classification test of `processQueue`:
`error.error?.type === 'tokens' && error.error?.code === 'rate_limit_exceeded'`. -/
def isRateLimitError (e : JsError) : Bool :=
  e.errType = some "tokens" ∧ e.errCode = some "rate_limit_exceeded"

/-- The outcome of running a queued task's `task()` thunk once: either it
returns normally having already called `resolve text` and added `tokens` to
the window counter (the thunk resolves itself on success and on its own
caught errors), or it throws a JS error to the worker. -/
inductive TRes where
  | ok (tokens : ℕ) (text : String)
  | thrown (e : JsError)
deriving DecidableEq

/-- A queue entry `{ task, resolve, retries }`.  `behavior n` is the outcome
of the task thunk when run while the entry's retry counter is `n`, and
`dur n` is the wall-clock time that run takes.  `id` identifies the entry's
`resolve` callback (each enqueue call gets a fresh one). -/
structure Task where
  id : ℕ
  behavior : ℕ → TRes
  dur : ℕ → ℕ
  retries : ℕ

/-! ## Rate limiter state and the 60s reset interval -/

/-- The mutable fields of `RATE_LIMIT` together with a clock.  `sinceReset`
is `Date.now() - RATE_LIMIT.lastReset`, the time elapsed in the current
60s window; `now` is absolute time (ms). -/
structure QState where
  currentTokens : ℕ
  backoffTime : ℕ
  sinceReset : ℕ
  now : ℕ
deriving DecidableEq

/-- Let `d` milliseconds pass: the clock advances and, if one or more 60s
boundaries are crossed, the `setInterval` callback fires, zeroing
`currentTokens` and restoring `backoffTime` to 1000. -/
def advanceTime (st : QState) (d : ℕ) : QState :=
  let t := st.sinceReset + d
  if RATE_LIMIT.resetInterval ≤ t then
    { currentTokens := 0, backoffTime := 1000,
      sinceReset := t % RATE_LIMIT.resetInterval, now := st.now + d }
  else
    { st with sinceReset := t, now := st.now + d }

/-- The cooldown test of the worker loop:
`RATE_LIMIT.currentTokens > RATE_LIMIT.tokensPerMin * RATE_LIMIT.cooldownThreshold`
with `cooldownThreshold = 0.8`.  For integral `currentTokens` the float
comparison against `30000 * 0.8` is exactly `5 * currentTokens > 4 * 30000`. -/
def inCooldown (st : QState) : Bool :=
  4 * RATE_LIMIT.tokensPerMin < 5 * st.currentTokens

/-- The cooldown sleep duration:
`Math.max(resetInterval - (Date.now() - lastReset), 1000)`. -/
def coolWait (st : QState) : ℕ :=
  max (RATE_LIMIT.resetInterval - st.sinceReset) 1000

/-- The halving applied to `RATE_LIMIT.backoffTime` after a successful
dispatch: `Math.max(1000, backoffTime / 2)`. -/
def halveBackoff (b : ℕ) : ℕ := max 1000 (b / 2)

/-- The backoff wait before a retry, computed after the retry counter was
incremented to `r`: `Math.min(maxBackoff, backoffTime * 2 ** r)`. -/
def retryWait (b r : ℕ) : ℕ := min RATE_LIMIT.maxBackoff (b * 2 ^ r)

/-! ## The worker loop of processQueue -/

/-- Observable events of a queue run.  `dispatch id attempt time` marks the
start of `await queueItem.task()`; `sleepEv ms time` an
`await setTimeout(ms)`; `resolveEv id text time` a call of the entry's
`resolve` with `text`. -/
inductive QEvent where
  | dispatch (id attempt time : ℕ)
  | sleepEv (ms time : ℕ)
  | resolveEv (id : ℕ) (text : String) (time : ℕ)
deriving DecidableEq

/-- Result of one iteration of the `while` loop of `processQueue` on the
head entry: the state afterwards, the events of the iteration, and
`next = some r'` when the head was left in place with retry counter `r'`
(`continue` without `shift`), `none` when it was popped. -/
structure StepRes where
  st' : QState
  evs : List QEvent
  next : Option ℕ

/-- One iteration of the worker's `while` loop on head entry `t`. -/
def stepIter (st : QState) (t : Task) : StepRes :=
  if inCooldown st then
    -- cooldown: sleep until the window resets, re-evaluate the same head
    { st' := advanceTime st (coolWait st),
      evs := [QEvent.sleepEv (coolWait st) st.now],
      next := some t.retries }
  else
    let st1 := advanceTime st (t.dur t.retries)
    match t.behavior t.retries with
    | TRes.ok tk text =>
        -- the task resolved itself; shift, halve the backoff, minimum spacing sleep
        let st2 := { st1 with currentTokens := st1.currentTokens + tk }
        let st3 := { st2 with backoffTime := halveBackoff st2.backoffTime }
        { st' := advanceTime st3 1000,
          evs := [QEvent.dispatch t.id t.retries st.now,
                  QEvent.resolveEv t.id text st1.now,
                  QEvent.sleepEv 1000 st3.now],
          next := none }
    | TRes.thrown e =>
        if isRateLimitError e then
          if RATE_LIMIT.maxRetries < t.retries + 1 then
            -- retries exhausted: shift, resolve, continue (no spacing sleep)
            { st' := st1,
              evs := [QEvent.dispatch t.id t.retries st.now,
                      QEvent.resolveEv t.id
                        "Rate limit exceeded. Please try again in a moment." st1.now],
              next := none }
          else
            -- backoff: store the wait, sleep it, retry the same head
            let w := retryWait st1.backoffTime (t.retries + 1)
            { st' := advanceTime { st1 with backoffTime := w } w,
              evs := [QEvent.dispatch t.id t.retries st.now,
                      QEvent.sleepEv w st1.now],
              next := some (t.retries + 1) }
        else
          -- any other error: shift, resolve with the error message, spacing sleep
          { st' := advanceTime st1 1000,
            evs := [QEvent.dispatch t.id t.retries st.now,
                    QEvent.resolveEv t.id ("Error analyzing scene: " ++ e.msg) st1.now,
                    QEvent.sleepEv 1000 st1.now],
            next := none }

/-- Termination measure for iterating on one head entry: the retry counter
can rise at most to `maxRetries + 1` and a cooldown iteration zeroes the
token counter, so cooldowns never occur twice in a row. -/
def headMeasure (st : QState) (t : Task) : ℕ :=
  2 * (RATE_LIMIT.maxRetries + 1 - min t.retries (RATE_LIMIT.maxRetries + 1))
    + (if inCooldown st then 1 else 0)

/-- Iterate the worker loop on head entry `t` until it is popped.  The fuel
argument is only a structural-recursion device: `headMeasure` is bounded by
`2 * (maxRetries + 1) + 1` and strictly decreases at every kept-head
iteration, so fuel `10` always suffices (`runHeadGo_fuel_irrelevant`). -/
def runHeadGo : ℕ → QState → Task → QState × List QEvent
  | 0, st, _ => (st, [])
  | fuel + 1, st, t =>
      let s := stepIter st t
      match s.next with
      | none => (s.st', s.evs)
      | some r' =>
          let p := runHeadGo fuel s.st' { t with retries := r' }
          (p.1, s.evs ++ p.2)

/-- Process the head entry of the queue until it is shifted. -/
def runHead (st : QState) (t : Task) : QState × List QEvent :=
  runHeadGo 10 st t

/-- Drain the queue: the `while` loop of `processQueue`, on a queue whose
entries are given up front in FIFO order. -/
def processQueue : QState → List Task → QState × List QEvent
  | st, [] => (st, [])
  | st, t :: rest =>
      let p := runHead st t
      let q := processQueue p.1 rest
      (q.1, p.2 ++ q.2)

/-! ## Trace accessors -/

/-- The resolutions of a trace: which promise was resolved, with what. -/
def resolutions (evs : List QEvent) : List (ℕ × String) :=
  evs.filterMap fun e =>
    match e with
    | QEvent.resolveEv i s _ => some (i, s)
    | _ => none

/-- The dispatches of a trace: `(id, attempt, time)` triples. -/
def dispatchRecs (evs : List QEvent) : List (ℕ × ℕ × ℕ) :=
  evs.filterMap fun e =>
    match e with
    | QEvent.dispatch i a tm => some (i, a, tm)
    | _ => none

/-- The sleep durations of a trace, in order. -/
def sleepDurations (evs : List QEvent) : List ℕ :=
  evs.filterMap fun e =>
    match e with
    | QEvent.sleepEv ms _ => some ms
    | _ => none

/-- Dispatches and resolutions of a trace, interleaved in trace order:
`Sum.inl id` for a dispatch of `id`, `Sum.inr id` for a resolution of `id`.
Used to state that requests are serialized (at most one in flight). -/
def dispatchResolvePattern (evs : List QEvent) : List (ℕ ⊕ ℕ) :=
  evs.filterMap fun e =>
    match e with
    | QEvent.dispatch i _ _ => some (Sum.inl i)
    | QEvent.resolveEv i _ _ => some (Sum.inr i)
    | _ => none

/-! ## The queue entry point generateDetailedDescription -/

/-- One attempt of the external provider call
`openai.chat.completions.create(...)`: either it returns with
`choices[0]?.message?.content` (possibly absent or empty), or it throws. -/
inductive PResult where
  | ok (content : Option String)
  | err (e : JsError)

/-- `Math.ceil(n / 3)` for a natural `n`. -/
def ceilDiv3 (n : ℕ) : ℕ := (n + 2) / 3

/-- The behaviour of the task thunk built by `generateDetailedDescription`:
on a provider success the thunk adds `Math.ceil(description.length / 3)`
tokens and resolves with `description.trim()` (where `description` is the
content or `"Unable to analyze scene."` when the content is falsy); on ANY
provider error the thunk's own `catch` resolves with the local fallback.
The thunk never throws. -/
def gddTaskBehavior (scene : SceneData) (provider : ℕ → PResult) : ℕ → TRes :=
  fun n =>
    match provider n with
    | PResult.ok content =>
        let description := orTruthy content "Unable to analyze scene."
        TRes.ok (ceilDiv3 description.length) description.trim
    | PResult.err _ => TRes.ok 0 (generateBasicDescription scene)

/-- The queue entry built for a scene by `generateDetailedDescription`. -/
def gddTask (scene : SceneData) (provider : ℕ → PResult) (dur : ℕ → ℕ)
    (newId : ℕ) : Task :=
  { id := newId, behavior := gddTaskBehavior scene provider, dur := dur,
    retries := 0 }

/-- What a call of `generateDetailedDescription` does before any queue
processing: either it returns a string at once, or it pushes a task. -/
inductive GDDOutcome where
  | immediate (s : String)
  | enqueued (t : Task)

/-- `generateDetailedDescription(sceneData)`.  `hasKey` is whether the
`VITE_OPENAI_API_KEY` environment variable was set at startup (`openai`
non-null). -/
def generateDetailedDescription (hasKey : Bool) (scene : SceneData)
    (provider : ℕ → PResult) (dur : ℕ → ℕ) (newId : ℕ) : GDDOutcome :=
  if !hasKey then GDDOutcome.immediate (generateBasicDescription scene)
  else if strTruthy scene.error then
    GDDOutcome.immediate ("Analysis paused: " ++ scene.error.getD "")
  else if !strTruthy scene.frame then
    GDDOutcome.immediate (generateBasicDescription scene)
  else GDDOutcome.enqueued (gddTask scene provider dur newId)

/-- The strings with which one call of `generateDetailedDescription`
resolves its promise, when the queue already holds `pending` entries and
the rate limiter is in state `st`: the immediate return, or every
resolution of the call's own task id produced by draining the queue with
the new task pushed at the back. -/
def callResolutions (hasKey : Bool) (scene : SceneData)
    (provider : ℕ → PResult) (dur : ℕ → ℕ) (newId : ℕ) (st : QState)
    (pending : List Task) : List String :=
  match generateDetailedDescription hasKey scene provider dur newId with
  | GDDOutcome.immediate s => [s]
  | GDDOutcome.enqueued t =>
      ((resolutions (processQueue st (pending ++ [t])).2).filter
        fun p => p.1 = t.id).map Prod.snd

/-! ## Motion heuristics (detectSuddenMovement / detectAggressiveMotion) -/

def MOTION_HISTORY_DURATION : ℚ := 2000
def SUDDEN_MOVEMENT_THRESHOLD : ℚ := 100

/-- An entry of the `previousPositions` map: `{ x, y, time }`. -/
structure PrevPos where
  x : ℚ
  y : ℚ
  time : ℚ
deriving DecidableEq

/-- A bounding box `[x, y, width, height]`. -/
structure BBox where
  x : ℚ
  y : ℚ
  w : ℚ
  h : ℚ
deriving DecidableEq

/-- The `previousPositions` JS `Map`, as an insertion-ordered association
list. -/
abbrev PosMap := List (String × PrevPos)

/-- `Map.get`. -/
def mapGet (m : PosMap) (id : String) : Option PrevPos :=
  (m.find? fun e => e.1 = id).map Prod.snd

/-- `Map.set`: update in place when the key is present, append otherwise. -/
def mapSet (m : PosMap) (id : String) (p : PrevPos) : PosMap :=
  if m.any fun e => e.1 = id then
    m.map fun e => if e.1 = id then (id, p) else e
  else m ++ [(id, p)]

/-- The lazy purge loop: delete every entry whose position is older than
`MOTION_HISTORY_DURATION`. -/
def mapPurge (m : PosMap) (now : ℚ) : PosMap :=
  m.filter fun e => ¬ (MOTION_HISTORY_DURATION < now - e.2.time)

/-- `detectSuddenMovement(currentPos, previousPos)`: Euclidean displacement
over elapsed seconds, compared with the threshold in pixels per second.
`now` stands for the source's `Date.now()` call. -/
def detectSuddenMovement (cur : ℚ × ℚ) (prev : PrevPos) (now : ℚ) : Prop :=
  let dx : ℝ := ((cur.1 - prev.x : ℚ) : ℝ)
  let dy : ℝ := ((cur.2 - prev.y : ℚ) : ℝ)
  let distance := Real.sqrt (dx * dx + dy * dy)
  let timeDiff : ℝ := ((now - prev.time : ℚ) : ℝ)
  let speed := distance / (timeDiff / 1000)
  ((SUDDEN_MOVEMENT_THRESHOLD : ℚ) : ℝ) < speed

/-- The centre of a bounding box. -/
def bboxCenter (bbox : BBox) : ℚ × ℚ := (bbox.x + bbox.w / 2, bbox.y + bbox.h / 2)

/-- The update `detectAggressiveMotion(bbox, personId)` performs on the
`previousPositions` map: with no prior entry for `personId` it only seeds
the history; otherwise it purges stale entries and stores the new centre. -/
def detectAggressiveMotionState (bbox : BBox) (personId : String) (now : ℚ)
    (m : PosMap) : PosMap :=
  let c := bboxCenter bbox
  match mapGet m personId with
  | none => mapSet m personId ⟨c.1, c.2, now⟩
  | some _ => mapSet (mapPurge m now) personId ⟨c.1, c.2, now⟩

/-- The `isAggressive` flag returned by `detectAggressiveMotion`: false with
no prior entry, otherwise the sudden-movement test against the prior
position. -/
def detectAggressiveMotionResult (bbox : BBox) (personId : String) (now : ℚ)
    (m : PosMap) : Prop :=
  match mapGet m personId with
  | none => False
  | some prev => detectSuddenMovement (bboxCenter bbox) prev now

/-! ## Derived notions and concrete inputs for the queue -/

/-- A task whose thunk never throws to the worker: the shape of every task
built by `generateDetailedDescription`, whose internal `catch` swallows all
provider errors. -/
def NonThrowing (t : Task) : Prop :=
  ∀ n, ∃ tk s, t.behavior n = TRes.ok tk s

/-- The time at which the worker dispatches a non-throwing head task from
state `st`: immediately, or after one cooldown sleep. -/
def dispTime (st : QState) : ℕ :=
  if inCooldown st then (advanceTime st (coolWait st)).now else st.now

/-- A provider rate-limit error, as recognized by the worker's check. -/
def rlErr : JsError :=
  { errType := some "tokens", errCode := some "rate_limit_exceeded",
    msg := "Request too large" }

/-- A scene carrying a frame, so that `generateDetailedDescription`
enqueues a task for it. -/
def sceneWithFrame : SceneData :=
  { people := [], objects := ["car"], frame := some "ZmFrZQ==", error := none,
    isScenic := false }

/-- A provider that throws a rate-limit error on every attempt. -/
def provRL : ℕ → PResult := fun _ => PResult.err rlErr

/-- A provider that succeeds on every attempt. -/
def provText : ℕ → PResult := fun _ => PResult.ok (some "model text")

/-- The rate limiter's startup state at clock 0. -/
def st0 : QState :=
  { currentTokens := 0, backoffTime := 1000, sinceReset := 0, now := 0 }

/-- The task enqueued for `sceneWithFrame` against the rate-limited
provider. -/
def tRL : Task := gddTask sceneWithFrame provRL (fun _ => 0) 0

/-- A raw queue entry whose thunk throws a rate-limit error to the worker
on every run (reaching the worker's own retry machinery). -/
def tThrow : Task :=
  { id := 7, behavior := fun _ => TRes.thrown rlErr, dur := fun _ => 0,
    retries := 0 }

/-- A task enqueued for `sceneWithFrame` against the succeeding provider. -/
def tText (i : ℕ) : Task := gddTask sceneWithFrame provText (fun _ => 0) i

/-- A rate limiter state with 25500 of 30000 tokens (85%) used, mid-window. -/
def stHot : QState :=
  { currentTokens := 25500, backoffTime := 1000, sinceReset := 30000,
    now := 30000 }

/-- A JS error carrying no rate-limit signal. -/
def otherErr : JsError := { errType := none, errCode := none, msg := "network down" }

/-- A raw queue entry whose thunk throws `otherErr` to the worker. -/
def tOther : Task :=
  { id := 2, behavior := fun _ => TRes.thrown otherErr, dur := fun _ => 0,
    retries := 0 }

/-- The age displayed for a person by the fallback formatter. -/
def displayAge (p : Person) : String :=
  orTruthy (p.annot.bind PersonAnnot.ageRange) "unknown age"

/-- The expression displayed for a person by the fallback formatter. -/
def displayExpression (p : Person) : String :=
  orTruthy (p.annot.bind PersonAnnot.expression) "neutral expression"

/-- A person with an explicit age range and expression, used in concrete
scenes below. -/
def personA : Person :=
  { pose := "standing upright", position := "in the center",
    activity := "no specific activity detected", movement := "staying still",
    annot := some { ageRange := some "30-40", expression := some "happy" } }

/-- A scenic scene containing one person. -/
def sceneScenicOnePerson : SceneData :=
  { people := [personA], objects := [], frame := none, error := none,
    isScenic := true }

/-- A scene with nothing detected but a truthy `error` field. -/
def sceneEmptyWithError : SceneData :=
  { people := [], objects := [], frame := none,
    error := some "Camera disconnected", isScenic := false }

/-! ## Helper lemmas: strings and the formatter -/

/-- A string contains any middle factor of an explicit decomposition. -/
lemma strContains_intro (pre mid post : String) :
    strContains (pre ++ mid ++ post) mid := by
  refine ⟨pre.data, post.data, ?_⟩
  simp



/-- The person clause follows the template
`"A person (AGE, EXPRESSION) is POSE POSITION[, they are MOVEMENT][, while ACTIVITY]."`. -/
lemma personClause_template (p : Person) :
    personClause p =
      "A person (" ++ displayAge p ++ ", " ++ displayExpression p ++ ") is "
        ++ p.pose ++ " " ++ p.position
        ++ (if p.movement ≠ "staying still" then ", they are " ++ p.movement else "")
        ++ (if p.activity ≠ "" then ", while " ++ p.activity else "")
        ++ "." := by
  have hw : ∀ z : String, (", " : String) ++ ("while " ++ z) = ", while " ++ z := by
    intro z; rw [← String.append_assoc]; rfl
  have htm : ∀ z : String, (", " : String) ++ ("they are " ++ z) = ", they are " ++ z := by
    intro z; rw [← String.append_assoc]; rfl
  by_cases hm : p.movement = "staying still" <;> by_cases ha : p.activity = "" <;>
    simp only [personClause, displayAge, displayExpression, hm, ha, ne_eq,
      not_true_eq_false, not_false_eq_true, if_true, if_false, ite_true, ite_false,
      List.append_nil, List.nil_append, List.cons_append, String.intercalate] <;>
    simp [String.intercalate.go, String.append_assoc, hw, htm]

/-- Every person clause contains the displayed age verbatim. -/
lemma personClause_contains_age (p : Person) :
    strContains (personClause p) (displayAge p) := by
  rw [personClause_template]
  have h := strContains_intro "A person (" (displayAge p)
    (", " ++ displayExpression p ++ ") is " ++ p.pose ++ " " ++ p.position
      ++ (if p.movement ≠ "staying still" then ", they are " ++ p.movement else "")
      ++ (if p.activity ≠ "" then ", while " ++ p.activity else "")
      ++ ".")
  simpa [String.append_assoc] using h

/-- Every person clause contains the displayed expression verbatim. -/
lemma personClause_contains_expression (p : Person) :
    strContains (personClause p) (displayExpression p) := by
  rw [personClause_template]
  have h := strContains_intro ("A person (" ++ displayAge p ++ ", ")
    (displayExpression p)
    (") is " ++ p.pose ++ " " ++ p.position
      ++ (if p.movement ≠ "staying still" then ", they are " ++ p.movement else "")
      ++ (if p.activity ≠ "" then ", while " ++ p.activity else "")
      ++ ".")
  simpa [String.append_assoc] using h

/-! ## Claims C8, C9, C10: the fallback formatter and the no-frame path -/



set_option maxRecDepth 8000 in
/-- C8 counterexample: a `SceneDescriptor` with `isScenic` set and one
person (age range `"30-40"`) makes the fallback formatter return the fixed
scenic sentence, which contains no person clause at all: neither the
clause head `"A person ("` nor the person's age range occurs in the
output, although the claim requires exactly one person clause carrying the
age range verbatim. -/
theorem c8_counterexample :
    sceneScenicOnePerson.people.length = 1
    ∧ generateBasicDescription sceneScenicOnePerson = scenicSentence
    ∧ ¬ strContains (generateBasicDescription sceneScenicOnePerson) "A person ("
    ∧ ¬ strContains (generateBasicDescription sceneScenicOnePerson) "30-40" := by
  refine ⟨rfl, rfl, ?_, ?_⟩ <;> decide

/-- C8 (amended: for scene descriptors with no truthy `error` and
`isScenic` unset): the fallback formatter's output is the trimmed
space-join of exactly one person clause per person — so exactly N clauses
for N people — followed by the objects sentence when any non-person object
was detected; each person clause follows the template
`"A person (AGE, EXPRESSION) is POSE POSITION[, they are MOVEMENT][, while ACTIVITY]."`
and contains that person's displayed age range and expression verbatim. -/
theorem c8_fallback_person_clauses (s : SceneData)
    (herr : strTruthy s.error = false) (hsc : s.isScenic = false)
    (hne : s.people ≠ [] ∨ s.objects ≠ []) :
    generateBasicDescription s =
      (String.intercalate " "
        (s.people.map personClause
          ++ (if s.objects.length > 0 then [objectsSentence s.objects] else []))).trim
    ∧ (s.people.map personClause).length = s.people.length
    ∧ ∀ p ∈ s.people,
        personClause p =
          "A person (" ++ displayAge p ++ ", " ++ displayExpression p ++ ") is "
            ++ p.pose ++ " " ++ p.position
            ++ (if p.movement ≠ "staying still" then ", they are " ++ p.movement else "")
            ++ (if p.activity ≠ "" then ", while " ++ p.activity else "")
            ++ "."
        ∧ strContains (personClause p) (displayAge p)
        ∧ strContains (personClause p) (displayExpression p) := by
  refine ⟨?_, by simp, ?_⟩
  · have hne' : ¬ (s.people.length = 0 ∧ s.objects.length = 0) := by
      rcases hne with h | h <;> simp [List.length_eq_zero] <;> intro h' <;> simp_all
    simp [generateBasicDescription, herr, hsc, hne']
    intro h1 h2
    exact absurd ⟨by simp [h1], by simp [h2]⟩ hne'
  · intro p _
    exact ⟨personClause_template p, personClause_contains_age p,
      personClause_contains_expression p⟩

/-- C8 witness: the amended statement applied to a concrete one-person,
two-object scene. -/
theorem c8_witness :
    generateBasicDescription
        { people := [personA], objects := ["car", "dog"], frame := none,
          error := none, isScenic := false } =
      (String.intercalate " "
        ([personA].map personClause ++ [objectsSentence ["car", "dog"]])).trim
    ∧ strContains (personClause personA) "30-40"
    ∧ strContains (personClause personA) "happy" := by
  have h := c8_fallback_person_clauses
    { people := [personA], objects := ["car", "dog"], frame := none,
      error := none, isScenic := false }
    (by decide) (by decide) (by decide)
  refine ⟨?_, ?_, ?_⟩
  · simpa using h.1
  · have := (h.2.2 personA (by decide)).2.1
    simpa [displayAge, personA, orTruthy] using this
  · have := (h.2.2 personA (by decide)).2.2
    simpa [displayExpression, personA, orTruthy] using this



/-- C9 counterexample: on a `SceneDescriptor` with `people = []` and
`objects = []` but a truthy `error` field, the fallback formatter returns
the error string, not the fixed "no detection" sentence. -/
theorem c9_counterexample :
    generateBasicDescription sceneEmptyWithError = "Camera disconnected"
    ∧ "Camera disconnected" ≠ noDetectionSentence := by
  exact ⟨rfl, by decide⟩

/-- C9 (amended: for scene descriptors with no truthy `error` and
`isScenic` unset): with `people = []` and `objects = []` the fallback
formatter returns the fixed "no detection" sentence, which is non-empty;
the output is a deterministic constant. -/
theorem c9_empty_scene_sentence (s : SceneData)
    (herr : strTruthy s.error = false) (hsc : s.isScenic = false)
    (hp : s.people = []) (ho : s.objects = []) :
    generateBasicDescription s = noDetectionSentence
    ∧ noDetectionSentence ≠ "" := by
  constructor
  · simp [generateBasicDescription, herr, hsc, hp, ho]
  · decide

/-- C9 witness: the amended statement at the all-empty scene. -/
theorem c9_witness :
    generateBasicDescription
        { people := [], objects := [], frame := none, error := none,
          isScenic := false } = noDetectionSentence := by
  exact (c9_empty_scene_sentence
    { people := [], objects := [], frame := none, error := none,
      isScenic := false } (by decide) (by decide) rfl rfl).1

/-- C10: a scene descriptor with no `frame` and no `error` makes
`generateDetailedDescription` return the deterministic template fallback
immediately, for any API-key configuration and any provider behaviour: the
outcome is `immediate` (no task is ever enqueued, hence the provider is
never contacted). -/
theorem c10_no_frame_immediate_fallback (hasKey : Bool) (s : SceneData)
    (provider : ℕ → PResult) (dur : ℕ → ℕ) (newId : ℕ)
    (hf : s.frame = none) (he : s.error = none) :
    generateDetailedDescription hasKey s provider dur newId =
      GDDOutcome.immediate (generateBasicDescription s) := by
  cases hasKey <;> simp [generateDetailedDescription, hf, he, strTruthy]

/-- C10 witness: the no-frame, no-error scene with one person, with the API
key configured and a provider that would succeed, still resolves
immediately with the template fallback. -/
theorem c10_witness :
    generateDetailedDescription true
        { people := [personA], objects := [], frame := none, error := none,
          isScenic := false }
        (fun _ => PResult.ok (some "model text")) (fun _ => 0) 5 =
      GDDOutcome.immediate (generateBasicDescription
        { people := [personA], objects := [], frame := none, error := none,
          isScenic := false }) := by
  exact c10_no_frame_immediate_fallback true _ _ _ 5 rfl rfl

/-! ## Claims C6, C7: motion heuristics -/

/-- `detectSuddenMovement` holds exactly when the displacement exceeds the
threshold times the elapsed time in seconds, i.e. when displacement over
elapsed time exceeds the pixels-per-second threshold. -/
lemma detectSuddenMovement_iff (cur : ℚ × ℚ) (prev : PrevPos) (now : ℚ)
    (h : prev.time < now) :
    detectSuddenMovement cur prev now ↔
      (SUDDEN_MOVEMENT_THRESHOLD * ((now - prev.time) / 1000)) ^ 2
        < (cur.1 - prev.x) ^ 2 + (cur.2 - prev.y) ^ 2 := by
  have h0 : (0:ℚ) < now - prev.time := sub_pos.mpr h
  have htd : (0:ℝ) < ((now - prev.time : ℚ) : ℝ) / 1000 := by
    have h1 : (0:ℝ) < ((now - prev.time : ℚ) : ℝ) := by exact_mod_cast h0
    positivity
  simp only [detectSuddenMovement, SUDDEN_MOVEMENT_THRESHOLD]
  rw [lt_div_iff₀ htd, Real.lt_sqrt (by positivity)]
  rw [show ((100:ℚ):ℝ) * (((now - prev.time : ℚ) : ℝ) / 1000)
        = ((((100:ℚ) * ((now - prev.time) / 1000) : ℚ)) : ℝ) from by push_cast; ring]
  rw [show (((cur.1 - prev.x : ℚ) : ℝ) * ((cur.1 - prev.x : ℚ) : ℝ)
        + ((cur.2 - prev.y : ℚ) : ℝ) * ((cur.2 - prev.y : ℚ) : ℝ))
        = (((cur.1 - prev.x) ^ 2 + (cur.2 - prev.y) ^ 2 : ℚ) : ℝ) from by push_cast; ring]
  rw [← Rat.cast_pow]
  exact Rat.cast_lt

/-- With no prior entry for a key, `Map.get` returning nothing means no
entry has that key. -/
lemma mapGet_none_any {m : PosMap} {id : String} (h : mapGet m id = none) :
    (m.any fun e => e.1 = id) = false := by
  simp only [mapGet, Option.map_eq_none', List.find?_eq_none] at h
  simp only [List.any_eq_false]
  intro e he
  simpa using h e he

/-- C6: `detectSuddenMovement` computes speed as Euclidean displacement
divided by elapsed time and reports a sudden movement exactly when that
speed exceeds the fixed 100 px/s threshold (stated squared to stay in the
rationals, for elapsed time positive); concretely, a move from (0,0) to
(200,0) in 100 ms (0.1 s, speed 2000 px/s) is sudden and a move from (0,0)
to (1,0) in 1000 ms (1 s, speed 1 px/s) is not; and when no prior
observation exists for the id, the motion analysis reports not-sudden and
only appends the seed entry to the history. -/
theorem c6_sudden_movement_speed :
    (∀ (cur : ℚ × ℚ) (prev : PrevPos) (now : ℚ), prev.time < now →
      (detectSuddenMovement cur prev now ↔
        (SUDDEN_MOVEMENT_THRESHOLD * ((now - prev.time) / 1000)) ^ 2
          < (cur.1 - prev.x) ^ 2 + (cur.2 - prev.y) ^ 2))
    ∧ detectSuddenMovement (200, 0) ⟨0, 0, 0⟩ 100
    ∧ ¬ detectSuddenMovement (1, 0) ⟨0, 0, 0⟩ 1000
    ∧ (∀ (bbox : BBox) (id : String) (now : ℚ) (m : PosMap),
        mapGet m id = none →
          ¬ detectAggressiveMotionResult bbox id now m
          ∧ detectAggressiveMotionState bbox id now m
              = m ++ [(id, ⟨(bboxCenter bbox).1, (bboxCenter bbox).2, now⟩)]) := by
  refine ⟨detectSuddenMovement_iff, ?_, ?_, ?_⟩
  · rw [detectSuddenMovement_iff _ _ _ (by norm_num)]
    norm_num [SUDDEN_MOVEMENT_THRESHOLD]
  · rw [detectSuddenMovement_iff _ _ _ (by norm_num)]
    norm_num [SUDDEN_MOVEMENT_THRESHOLD]
  · intro bbox id now m h
    constructor
    · simp [detectAggressiveMotionResult, h]
    · simp [detectAggressiveMotionState, h, mapSet, mapGet_none_any h]

/-- C6 witness: the characterization applied at elapsed time 100 ms and
displacement 300 px (speed 3000 px/s), and the seeding case applied to the
empty history. -/
theorem c6_witness :
    detectSuddenMovement (0, 300) ⟨0, 0, 100⟩ 200
    ∧ ¬ detectAggressiveMotionResult ⟨0, 0, 2, 2⟩ "p" 50 [] := by
  constructor
  · exact (c6_sudden_movement_speed.1 (0, 300) ⟨0, 0, 100⟩ 200 (by norm_num)).mpr
      (by norm_num [SUDDEN_MOVEMENT_THRESHOLD])
  · exact (c6_sudden_movement_speed.2.2.2 ⟨0, 0, 2, 2⟩ "p" 50 [] rfl).1

/-- Membership after `Map.set`: the new binding or an old entry. -/
lemma mem_mapSet {m : PosMap} {id : String} {p : PrevPos}
    {e : String × PrevPos} (he : e ∈ mapSet m id p) :
    e = (id, p) ∨ e ∈ m := by
  unfold mapSet at he
  split at he
  · rcases List.mem_map.mp he with ⟨x, hx, hxe⟩
    by_cases hxid : x.1 = id
    · left
      simp only [hxid, if_true] at hxe
      exact hxe.symm
    · right
      simp only [hxid, if_false] at hxe
      exact hxe ▸ hx
  · rcases List.mem_append.mp he with h1 | h1
    · right; exact h1
    · left; simpa using h1

/-- C7 counterexample: a motion-analysis call for a previously unseen id
(the seeding path) performs no purge at all: with an entry for `"a"` last
seen at time 0 and a call for `"b"` at time 3000, the 3000 ms old entry —
older than the 2000 ms window — survives the update. -/
theorem c7_counterexample :
    detectAggressiveMotionState ⟨0, 0, 2, 2⟩ "b" 3000 [("a", ⟨0, 0, 0⟩)]
      = [("a", ⟨0, 0, 0⟩), ("b", ⟨1, 1, 3000⟩)]
    ∧ ("a", (⟨0, 0, 0⟩ : PrevPos)) ∈
        detectAggressiveMotionState ⟨0, 0, 2, 2⟩ "b" 3000 [("a", ⟨0, 0, 0⟩)]
    ∧ MOTION_HISTORY_DURATION < 3000 - (0 : ℚ) := by
  have hab : (("a" : String) = "b") = False := by simp
  have hstate : detectAggressiveMotionState ⟨0, 0, 2, 2⟩ "b" 3000 [("a", ⟨0, 0, 0⟩)]
      = [("a", ⟨0, 0, 0⟩), ("b", ⟨1, 1, 3000⟩)] := by
    norm_num [detectAggressiveMotionState, mapGet, mapSet, mapPurge, bboxCenter,
      List.find?, List.any, MOTION_HISTORY_DURATION, hab]
  refine ⟨hstate, by rw [hstate]; simp, by norm_num [MOTION_HISTORY_DURATION]⟩

/-- C7 (amended): on a motion-analysis call for an id that has a prior
observation, every entry older than the 2000 ms window is purged before the
id's position is stored, so after such an update no entry of the map is
older than 2000 ms.  (A call for an unseen id only seeds the history and
purges nothing.) -/
theorem c7_purge_on_update (bbox : BBox) (id : String) (now : ℚ)
    (m : PosMap) (prev : PrevPos) (h : mapGet m id = some prev) :
    detectAggressiveMotionState bbox id now m
      = mapSet (mapPurge m now) id ⟨(bboxCenter bbox).1, (bboxCenter bbox).2, now⟩
    ∧ ∀ e ∈ detectAggressiveMotionState bbox id now m,
        now - e.2.time ≤ MOTION_HISTORY_DURATION := by
  have hstate : detectAggressiveMotionState bbox id now m
      = mapSet (mapPurge m now) id ⟨(bboxCenter bbox).1, (bboxCenter bbox).2, now⟩ := by
    simp [detectAggressiveMotionState, h]
  refine ⟨hstate, ?_⟩
  intro e he
  rw [hstate] at he
  rcases mem_mapSet he with rfl | hmem
  · simp [MOTION_HISTORY_DURATION]
  · have := List.of_mem_filter hmem
    simpa [not_lt] using this

/-- C7 witness: the amended statement applied to a map holding a stale
entry and the updated id: the stale entry is gone after the update. -/
theorem c7_witness :
    detectAggressiveMotionState ⟨0, 0, 2, 2⟩ "a" 3000
        [("a", ⟨5, 5, 2500⟩), ("b", ⟨0, 0, 0⟩)]
      = [("a", ⟨1, 1, 3000⟩)]
    ∧ ∀ e ∈ detectAggressiveMotionState ⟨0, 0, 2, 2⟩ "a" 3000
        [("a", ⟨5, 5, 2500⟩), ("b", ⟨0, 0, 0⟩)],
        3000 - e.2.time ≤ MOTION_HISTORY_DURATION := by
  have h := c7_purge_on_update ⟨0, 0, 2, 2⟩ "a" 3000
    [("a", ⟨5, 5, 2500⟩), ("b", ⟨0, 0, 0⟩)] ⟨5, 5, 2500⟩ (by rfl)
  have hba : (("b" : String) = "a") = False := by simp
  refine ⟨?_, h.2⟩
  norm_num [detectAggressiveMotionState, mapGet, mapSet, mapPurge, bboxCenter,
    List.find?, List.any, List.filter, MOTION_HISTORY_DURATION, hba]

/-! ## Helper lemmas: the rate limiter state -/

lemma advanceTime_now (st : QState) (d : ℕ) :
    (advanceTime st d).now = st.now + d := by
  by_cases h : RATE_LIMIT.resetInterval ≤ st.sinceReset + d <;>
    simp [advanceTime, h]

lemma advanceTime_tokens_le (st : QState) (d : ℕ) :
    (advanceTime st d).currentTokens ≤ st.currentTokens := by
  by_cases h : RATE_LIMIT.resetInterval ≤ st.sinceReset + d <;>
    simp [advanceTime, h]

lemma advanceTime_backoff_ge (st : QState) (d : ℕ)
    (h : 1000 ≤ st.backoffTime) : 1000 ≤ (advanceTime st d).backoffTime := by
  by_cases h' : RATE_LIMIT.resetInterval ≤ st.sinceReset + d <;>
    simp [advanceTime, h', h]

lemma coolWait_crosses (st : QState) :
    RATE_LIMIT.resetInterval ≤ st.sinceReset + coolWait st := by
  unfold coolWait RATE_LIMIT.resetInterval
  omega

lemma advanceTime_coolWait_tokens (st : QState) :
    (advanceTime st (coolWait st)).currentTokens = 0 := by
  have h := coolWait_crosses st
  simp [advanceTime, h]

lemma inCooldown_false_iff (st : QState) :
    inCooldown st = false ↔ 5 * st.currentTokens ≤ 4 * RATE_LIMIT.tokensPerMin := by
  simp [inCooldown]

lemma inCooldown_of_tokens_le {st st' : QState}
    (h : st'.currentTokens ≤ st.currentTokens) (hc : inCooldown st = false) :
    inCooldown st' = false := by
  rw [inCooldown_false_iff] at hc ⊢
  omega

lemma inCooldown_advance_coolWait (st : QState) :
    inCooldown (advanceTime st (coolWait st)) = false := by
  rw [inCooldown_false_iff, advanceTime_coolWait_tokens]
  simp

/-! ## Helper lemmas: the termination measure of the worker loop -/

lemma headMeasure_lt_ten (st : QState) (t : Task) : headMeasure st t < 10 := by
  have h1 : RATE_LIMIT.maxRetries + 1 - min t.retries (RATE_LIMIT.maxRetries + 1)
      ≤ RATE_LIMIT.maxRetries + 1 := Nat.sub_le _ _
  unfold headMeasure
  unfold RATE_LIMIT.maxRetries at h1 ⊢
  split <;> omega

lemma headMeasure_retries (st : QState) (t : Task) :
    headMeasure st { t with retries := t.retries } = headMeasure st t := rfl

lemma stepIter_decrease {st : QState} {t : Task} {r' : ℕ}
    (h : (stepIter st t).next = some r') :
    headMeasure (stepIter st t).st' { t with retries := r' } < headMeasure st t := by
  cases hc : inCooldown st with
  | true =>
    -- cooldown iteration: the bit drops from 1 to 0, retries are unchanged
    have hr : r' = t.retries := by
      simp [stepIter, hc] at h
      omega
    have hst : (stepIter st t).st' = advanceTime st (coolWait st) := by
      simp [stepIter, hc]
    have hc' : inCooldown (stepIter st t).st' = false := by
      rw [hst]; exact inCooldown_advance_coolWait st
    unfold headMeasure
    rw [hc, hc', hr]
    simp
  | false =>
    cases hb : t.behavior t.retries with
    | ok tk s => simp [stepIter, hc, hb] at h
    | thrown e =>
      cases hrl : isRateLimitError e with
      | false => simp [stepIter, hc, hb, hrl] at h
      | true =>
        by_cases hmr : RATE_LIMIT.maxRetries < t.retries + 1
        · simp [stepIter, hc, hb, hrl, hmr] at h
        · -- retry iteration: the retry counter strictly increases
          have hr : r' = t.retries + 1 := by
            simp [stepIter, hc, hb, hrl, hmr] at h
            omega
          have hst : (stepIter st t).st'
              = advanceTime
                  { advanceTime st (t.dur t.retries) with
                    backoffTime :=
                      retryWait (advanceTime st (t.dur t.retries)).backoffTime
                        (t.retries + 1) }
                  (retryWait (advanceTime st (t.dur t.retries)).backoffTime
                    (t.retries + 1)) := by
            simp [stepIter, hc, hb, hrl, hmr]
          have htok : (stepIter st t).st'.currentTokens ≤ st.currentTokens := by
            rw [hst]
            refine le_trans (advanceTime_tokens_le _ _) ?_
            exact advanceTime_tokens_le st _
          have hc' : inCooldown (stepIter st t).st' = false :=
            inCooldown_of_tokens_le htok hc
          have h2 : t.retries + 1 ≤ RATE_LIMIT.maxRetries := by omega
          unfold headMeasure
          rw [hc, hc', hr]
          dsimp only
          have hm1 : min (t.retries + 1) (RATE_LIMIT.maxRetries + 1) = t.retries + 1 :=
            Nat.min_eq_left (by omega)
          have hm2 : min t.retries (RATE_LIMIT.maxRetries + 1) = t.retries :=
            Nat.min_eq_left (by omega)
          rw [hm1, hm2]
          omega

/-! ## Helper lemmas: traces -/

lemma resolutions_append (a b : List QEvent) :
    resolutions (a ++ b) = resolutions a ++ resolutions b :=
  List.filterMap_append a b _

lemma dispatchRecs_append (a b : List QEvent) :
    dispatchRecs (a ++ b) = dispatchRecs a ++ dispatchRecs b :=
  List.filterMap_append a b _

lemma sleepDurations_append (a b : List QEvent) :
    sleepDurations (a ++ b) = sleepDurations a ++ sleepDurations b :=
  List.filterMap_append a b _

lemma dispatchResolvePattern_append (a b : List QEvent) :
    dispatchResolvePattern (a ++ b)
      = dispatchResolvePattern a ++ dispatchResolvePattern b :=
  List.filterMap_append a b _

/-- One unfolding of the worker iteration at positive fuel. -/
lemma runHeadGo_succ (fuel : ℕ) (st : QState) (t : Task) :
    runHeadGo (fuel + 1) st t
      = match (stepIter st t).next with
        | none => ((stepIter st t).st', (stepIter st t).evs)
        | some r' =>
            ((runHeadGo fuel (stepIter st t).st' { t with retries := r' }).1,
             (stepIter st t).evs
               ++ (runHeadGo fuel (stepIter st t).st' { t with retries := r' }).2) := rfl

/-! ## The worker resolves every head entry exactly once -/

lemma runHeadGo_res_ids (fuel : ℕ) :
    ∀ (st : QState) (t : Task), headMeasure st t < fuel →
      (resolutions (runHeadGo fuel st t).2).map Prod.fst = [t.id] := by
  induction fuel with
  | zero => intro st t h; omega
  | succ fuel ih =>
    intro st t hf
    cases hn : (stepIter st t).next with
    | none =>
      -- the head is popped this iteration, with exactly one resolution
      have hrun : runHeadGo (fuel + 1) st t = ((stepIter st t).st', (stepIter st t).evs) := by
        simp [runHeadGo, hn]
      rw [hrun]
      cases hc : inCooldown st with
      | true => simp [stepIter, hc] at hn
      | false =>
        cases hb : t.behavior t.retries with
        | ok tk s => simp [stepIter, hc, hb, resolutions]
        | thrown e =>
          cases hrl : isRateLimitError e with
          | false => simp [stepIter, hc, hb, hrl, resolutions]
          | true =>
            by_cases hmr : RATE_LIMIT.maxRetries < t.retries + 1
            · simp [stepIter, hc, hb, hrl, hmr, resolutions]
            · simp [stepIter, hc, hb, hrl, hmr] at hn
    | some r' =>
      -- the head is kept (cooldown or backoff), resolving nothing yet
      have hdec := stepIter_decrease hn
      have hrun : runHeadGo (fuel + 1) st t
          = ((runHeadGo fuel (stepIter st t).st' { t with retries := r' }).1,
             (stepIter st t).evs
               ++ (runHeadGo fuel (stepIter st t).st' { t with retries := r' }).2) := by
        simp [runHeadGo, hn]
      have hres : resolutions (stepIter st t).evs = [] := by
        cases hc : inCooldown st with
        | true => simp [stepIter, hc, resolutions]
        | false =>
          cases hb : t.behavior t.retries with
          | ok tk s => simp [stepIter, hc, hb] at hn
          | thrown e =>
            cases hrl : isRateLimitError e with
            | false => simp [stepIter, hc, hb, hrl] at hn
            | true =>
              by_cases hmr : RATE_LIMIT.maxRetries < t.retries + 1
              · simp [stepIter, hc, hb, hrl, hmr] at hn
              · simp [stepIter, hc, hb, hrl, hmr, resolutions]
      rw [hrun]
      simp only [resolutions_append, hres, List.nil_append]
      simpa using ih _ _ (by omega)

lemma runHead_res_ids (st : QState) (t : Task) :
    (resolutions (runHead st t).2).map Prod.fst = [t.id] :=
  runHeadGo_res_ids 10 st t (headMeasure_lt_ten st t)

lemma processQueue_res_ids (q : List Task) :
    ∀ st, (resolutions (processQueue st q).2).map Prod.fst = q.map Task.id := by
  induction q with
  | nil => intro st; simp [processQueue, resolutions]
  | cons t rest ih =>
    intro st
    simp [processQueue, resolutions_append, runHead_res_ids, ih]

lemma count_resolutions (l : List (ℕ × String)) (k : ℕ) :
    (l.filter fun p => p.1 = k).length
      = ((l.map Prod.fst).filter fun i => i = k).length := by
  rw [List.filter_map, List.length_map]
  rfl

/-- C1: every call of `generateDetailedDescription` resolves its promise
with exactly one string, under every configuration (no API key, scene
error, missing frame, provider success, provider rate-limit error, any
other provider error) and whatever the queue already contains: the list of
strings the call's promise is resolved with has length one.  The model has
no rejection event at all — the promise executor only ever calls
`resolve` — so resolving exactly once is the full contract. -/
theorem c1_enqueue_resolves_exactly_once (hasKey : Bool) (scene : SceneData)
    (provider : ℕ → PResult) (dur : ℕ → ℕ) (newId : ℕ) (st : QState)
    (pending : List Task) (hfresh : newId ∉ pending.map Task.id) :
    (callResolutions hasKey scene provider dur newId st pending).length = 1 := by
  unfold callResolutions
  cases hout : generateDetailedDescription hasKey scene provider dur newId with
  | immediate s => simp
  | enqueued t =>
    have ht : t = gddTask scene provider dur newId := by
      unfold generateDetailedDescription at hout
      split_ifs at hout <;> simp_all
    have htid : t.id = newId := by rw [ht]; rfl
    simp only [List.length_map]
    rw [count_resolutions, processQueue_res_ids]
    rw [List.map_append, List.filter_append]
    simp only [List.map_cons, List.map_nil]
    rw [htid]
    have h0 : (pending.map Task.id).filter (fun i => i = newId) = [] := by
      rw [List.filter_eq_nil_iff]
      intro a ha
      simp only [decide_eq_true_eq]
      exact fun hh => hfresh (hh ▸ ha)
    rw [h0]
    simp

/-- C1 witness: a call with the API key configured, a frame-bearing scene
and a succeeding provider, against an idle queue, resolves exactly once. -/
theorem c1_witness :
    (callResolutions true sceneWithFrame provText (fun _ => 0) 0 st0 []).length = 1 :=
  c1_enqueue_resolves_exactly_once true sceneWithFrame provText (fun _ => 0) 0 st0 []
    (by simp)

/-! ## Claims C2, C3: error classification and the backoff schedule -/

/-- C2 counterexample: the task that `generateDetailedDescription` enqueues
catches every provider error inside its own thunk, so a provider error
carrying the rate-limit signal does NOT make the worker sleep and retry: on
a queue holding only that task the worker dispatches it exactly once (no
retry), immediately resolves it with the degraded fallback description, and
the only sleep in the trace is the fixed 1000 ms inter-request spacing —
not a backoff. -/
theorem c2_counterexample :
    isRateLimitError rlErr = true
    ∧ generateDetailedDescription true sceneWithFrame provRL (fun _ => 0) 0
        = GDDOutcome.enqueued tRL
    ∧ dispatchRecs (processQueue st0 [tRL]).2 = [(0, 0, 0)]
    ∧ resolutions (processQueue st0 [tRL]).2
        = [(0, generateBasicDescription sceneWithFrame)]
    ∧ sleepDurations (processQueue st0 [tRL]).2 = [1000] := by
  exact ⟨rfl, rfl, rfl, rfl, rfl⟩

/-- C2 (amended): the worker classifies only errors THROWN to it by the
task thunk: a thrown error without the rate-limit signal pops the head and
resolves it at once with `"Error analyzing scene: MESSAGE"` after a single
dispatch (never retried), while a thrown rate-limit error (retry budget
permitting) keeps the head in place, resolves nothing and sleeps the
backoff wait.  But the thunks built by `generateDetailedDescription` catch
every provider error internally and resolve with the local fallback, so no
provider error — rate-limit signal or not — ever reaches this
classification. -/
theorem c2_error_classification :
    (∀ (st : QState) (t : Task) (e : JsError),
        inCooldown st = false → t.behavior t.retries = TRes.thrown e →
        isRateLimitError e = false →
          (stepIter st t).next = none
          ∧ resolutions (stepIter st t).evs
              = [(t.id, "Error analyzing scene: " ++ e.msg)]
          ∧ dispatchRecs (runHead st t).2 = [(t.id, t.retries, st.now)])
    ∧ (∀ (st : QState) (t : Task) (e : JsError),
        inCooldown st = false → t.behavior t.retries = TRes.thrown e →
        isRateLimitError e = true → t.retries + 1 ≤ RATE_LIMIT.maxRetries →
          (stepIter st t).next = some (t.retries + 1)
          ∧ resolutions (stepIter st t).evs = []
          ∧ sleepDurations (stepIter st t).evs
              = [retryWait (advanceTime st (t.dur t.retries)).backoffTime
                  (t.retries + 1)])
    ∧ (∀ (scene : SceneData) (provider : ℕ → PResult) (n : ℕ) (e : JsError),
        provider n = PResult.err e →
          gddTaskBehavior scene provider n
            = TRes.ok 0 (generateBasicDescription scene)) := by
  refine ⟨?_, ?_, ?_⟩
  · intro st t e hc hb hrl
    have hstep : stepIter st t =
        ⟨advanceTime (advanceTime st (t.dur t.retries)) 1000,
         [QEvent.dispatch t.id t.retries st.now,
          QEvent.resolveEv t.id ("Error analyzing scene: " ++ e.msg)
            (advanceTime st (t.dur t.retries)).now,
          QEvent.sleepEv 1000 (advanceTime st (t.dur t.retries)).now],
         none⟩ := by
      simp [stepIter, hc, hb, hrl]
    refine ⟨by rw [hstep], by rw [hstep]; rfl, ?_⟩
    simp [runHead, runHeadGo, hstep, dispatchRecs]
  · intro st t e hc hb hrl hr
    have hmr : ¬ RATE_LIMIT.maxRetries < t.retries + 1 := by omega
    have hstep : stepIter st t =
        ⟨advanceTime
            { advanceTime st (t.dur t.retries) with
              backoffTime :=
                retryWait (advanceTime st (t.dur t.retries)).backoffTime
                  (t.retries + 1) }
            (retryWait (advanceTime st (t.dur t.retries)).backoffTime
              (t.retries + 1)),
         [QEvent.dispatch t.id t.retries st.now,
          QEvent.sleepEv
            (retryWait (advanceTime st (t.dur t.retries)).backoffTime
              (t.retries + 1))
            (advanceTime st (t.dur t.retries)).now],
         some (t.retries + 1)⟩ := by
      simp [stepIter, hc, hb, hrl, hmr]
    exact ⟨by rw [hstep], by rw [hstep]; rfl, by rw [hstep]; rfl⟩
  · intro scene provider n e hp
    simp [gddTaskBehavior, hp]

/-- C2 witness: the classification applied to concrete tasks that throw a
non-rate-limit error (immediate degraded resolution) and a rate-limit error
(backoff, nothing resolved), and the provider-error swallowing applied to
the rate-limited provider. -/
theorem c2_witness :
    resolutions (stepIter st0 tOther).evs
      = [(2, "Error analyzing scene: " ++ "network down")]
    ∧ (stepIter st0 tThrow).next = some 1
    ∧ gddTaskBehavior sceneWithFrame provRL 0
        = TRes.ok 0 (generateBasicDescription sceneWithFrame) := by
  refine ⟨(c2_error_classification.1 st0 tOther otherErr rfl rfl rfl).2.1,
    (c2_error_classification.2.1 st0 tThrow rlErr rfl rfl rfl (by decide)).1,
    c2_error_classification.2.2 sceneWithFrame provRL 0 rlErr rfl⟩

/-- C3 counterexample: for a head task that fails with rate-limit errors on
every dispatch, starting from the initial 1000 ms stored backoff, the
worker's successive backoff sleeps are 2000 ms, 8000 ms and 60000 ms — the
first sleep is not 1000 ms and the second is not the double of the first,
refuting "starts at 1000ms, doubled on each retry".  (The sleep is
`min(60000, backoff * 2^retries)` and the stored backoff is updated to it.) -/
theorem c3_counterexample :
    sleepDurations (processQueue st0 [tThrow]).2 = [2000, 8000, 60000]
    ∧ (2000 : ℕ) ≠ 1000
    ∧ (8000 : ℕ) ≠ 2 * 2000
    ∧ resolutions (processQueue st0 [tThrow]).2
        = [(7, "Rate limit exceeded. Please try again in a moment.")]
    ∧ (dispatchRecs (processQueue st0 [tThrow]).2).length = 4 := by
  exact ⟨rfl, by decide, by decide, rfl, rfl⟩

/-- C3 (amended): on the k-th consecutive rate-limit failure of the head
task (incremented retry counter r), the worker sleeps
`retryWait backoff r = min(60000, backoff * 2^r)` and stores that value as
the new backoff; after a successful dispatch the stored backoff is halved
with `max(1000, backoff / 2)`, never dropping below the 1000 ms floor —
indeed no worker step ever brings a backoff of at least 1000 ms below
1000 ms; a task whose incremented retry counter exceeds the maximum of 3 is
popped and resolved with the explicit rate-limited message; and from the
initial 1000 ms backoff the concrete sleep schedule is 2000, 8000,
60000 ms. -/
theorem c3_backoff_schedule :
    (∀ (st : QState) (t : Task) (e : JsError),
        inCooldown st = false → t.behavior t.retries = TRes.thrown e →
        isRateLimitError e = true → t.retries + 1 ≤ RATE_LIMIT.maxRetries →
          sleepDurations (stepIter st t).evs
            = [retryWait (advanceTime st (t.dur t.retries)).backoffTime
                (t.retries + 1)]
          ∧ retryWait (advanceTime st (t.dur t.retries)).backoffTime (t.retries + 1)
              = min RATE_LIMIT.maxBackoff
                  ((advanceTime st (t.dur t.retries)).backoffTime
                    * 2 ^ (t.retries + 1)))
    ∧ (∀ b, halveBackoff b = max 1000 (b / 2) ∧ 1000 ≤ halveBackoff b)
    ∧ (∀ (st : QState) (t : Task), 1000 ≤ st.backoffTime →
        1000 ≤ (stepIter st t).st'.backoffTime)
    ∧ (∀ (st : QState) (t : Task) (e : JsError),
        inCooldown st = false → t.behavior t.retries = TRes.thrown e →
        isRateLimitError e = true → RATE_LIMIT.maxRetries < t.retries + 1 →
          (stepIter st t).next = none
          ∧ resolutions (stepIter st t).evs
              = [(t.id, "Rate limit exceeded. Please try again in a moment.")])
    ∧ sleepDurations (processQueue st0 [tThrow]).2 = [2000, 8000, 60000] := by
  refine ⟨?_, ?_, ?_, ?_, rfl⟩
  · intro st t e hc hb hrl hr
    have hmr : ¬ RATE_LIMIT.maxRetries < t.retries + 1 := by omega
    constructor
    · simp [stepIter, hc, hb, hrl, hmr, sleepDurations]
    · rfl
  · intro b
    exact ⟨rfl, le_max_left _ _⟩
  · intro st t h
    cases hc : inCooldown st with
    | true =>
      simp only [stepIter, hc, if_true]
      exact advanceTime_backoff_ge _ _ h
    | false =>
      cases hb : t.behavior t.retries with
      | ok tk s =>
        simp only [stepIter, hc, Bool.false_eq_true, if_false, hb]
        refine advanceTime_backoff_ge _ _ ?_
        exact le_max_left _ _
      | thrown e =>
        cases hrl : isRateLimitError e with
        | false =>
          simp only [stepIter, hc, Bool.false_eq_true, if_false, hb, hrl]
          refine advanceTime_backoff_ge _ _ ?_
          exact advanceTime_backoff_ge _ _ h
        | true =>
          by_cases hmr : RATE_LIMIT.maxRetries < t.retries + 1
          · simp only [stepIter, hc, Bool.false_eq_true, if_false, hb, hrl,
              if_true, hmr, if_pos hmr]
            exact advanceTime_backoff_ge _ _ h
          · simp only [stepIter, hc, Bool.false_eq_true, if_false, hb, hrl,
              if_true, if_neg hmr]
            have hb1 : 1000 ≤ (advanceTime st (t.dur t.retries)).backoffTime :=
              advanceTime_backoff_ge _ _ h
            have hw : 1000 ≤ retryWait (advanceTime st (t.dur t.retries)).backoffTime
                (t.retries + 1) := by
              refine le_min (by norm_num [RATE_LIMIT.maxBackoff]) ?_
              calc (1000 : ℕ) ≤ (advanceTime st (t.dur t.retries)).backoffTime := hb1
                _ ≤ (advanceTime st (t.dur t.retries)).backoffTime
                    * 2 ^ (t.retries + 1) :=
                  Nat.le_mul_of_pos_right _ (Nat.pos_pow_of_pos _ (by norm_num))
            exact advanceTime_backoff_ge _ _ hw
  · intro st t e hc hb hrl hmr
    have hstep : stepIter st t =
        ⟨advanceTime st (t.dur t.retries),
         [QEvent.dispatch t.id t.retries st.now,
          QEvent.resolveEv t.id "Rate limit exceeded. Please try again in a moment."
            (advanceTime st (t.dur t.retries)).now],
         none⟩ := by
      simp [stepIter, hc, hb, hrl, hmr]
    exact ⟨by rw [hstep], by rw [hstep]; rfl⟩

/-- C3 witness: the schedule applied to the concrete always-failing task at
the initial state: the first backoff sleep is 2000 ms; the halving floor
and the backoff-floor invariant at concrete values; exhaustion at retry
counter 3. -/
theorem c3_witness :
    sleepDurations (stepIter st0 tThrow).evs = [2000]
    ∧ 1000 ≤ halveBackoff 64
    ∧ 1000 ≤ (stepIter st0 tThrow).st'.backoffTime
    ∧ (stepIter st0 { tThrow with retries := 3 }).next = none := by
  refine ⟨?_, (c3_backoff_schedule.2.1 64).2,
    c3_backoff_schedule.2.2.1 st0 tThrow (by decide), ?_⟩
  · exact (c3_backoff_schedule.1 st0 tThrow rlErr rfl rfl rfl (by decide)).1
  · exact (c3_backoff_schedule.2.2.2.1 st0 { tThrow with retries := 3 } rlErr
      rfl rfl rfl (by decide)).1

/-! ## Claim C5: cooldown -/

/-- From a non-cooldown state the worker's first event is the dispatch of
the head task, at the current time and attempt counter. -/
lemma runHeadGo_head_dispatch (fuel : ℕ) (st : QState) (t : Task)
    (h : inCooldown st = false) :
    (dispatchRecs (runHeadGo (fuel + 1) st t).2).head?
      = some (t.id, t.retries, st.now) := by
  cases hb : t.behavior t.retries with
  | ok tk s => simp [runHeadGo, stepIter, h, hb, dispatchRecs]
  | thrown e =>
    cases hrl : isRateLimitError e with
    | false => simp [runHeadGo, stepIter, h, hb, hrl, dispatchRecs]
    | true =>
      by_cases hmr : RATE_LIMIT.maxRetries < t.retries + 1
      · simp [runHeadGo, stepIter, h, hb, hrl, hmr, dispatchRecs]
      · simp [runHeadGo, stepIter, h, hb, hrl, hmr, dispatchRecs,
          dispatchRecs_append]

/-- C5: whenever the window's token usage exceeds 80% of the per-minute
budget, the worker dispatches nothing: the iteration emits only a sleep of
`max(timeUntilReset, 1000)` which reaches the window boundary, the head is
kept in place with its retry counter untouched, the token counter is zero
afterwards (the 60 s window reset), the cooldown condition has cleared, and
the first dispatch of the whole head-processing happens only at or after
the reset, re-evaluating the same head task. -/
theorem c5_cooldown_defers_dispatch (st : QState) (t : Task)
    (h : inCooldown st = true) :
    (stepIter st t).evs = [QEvent.sleepEv (coolWait st) st.now]
    ∧ (stepIter st t).next = some t.retries
    ∧ (stepIter st t).st' = advanceTime st (coolWait st)
    ∧ (stepIter st t).st'.currentTokens = 0
    ∧ RATE_LIMIT.resetInterval ≤ st.sinceReset + coolWait st
    ∧ inCooldown (stepIter st t).st' = false
    ∧ (dispatchRecs (runHead st t).2).head?
        = some (t.id, t.retries, st.now + coolWait st) := by
  have hstep : stepIter st t =
      ⟨advanceTime st (coolWait st),
       [QEvent.sleepEv (coolWait st) st.now], some t.retries⟩ := by
    simp [stepIter, h]
  have hteta : ({ t with retries := t.retries } : Task) = t := rfl
  refine ⟨by rw [hstep], by rw [hstep], by rw [hstep], ?_,
    coolWait_crosses st, ?_, ?_⟩
  · rw [hstep]
    exact advanceTime_coolWait_tokens st
  · rw [hstep]
    exact inCooldown_advance_coolWait st
  · have h9 := runHeadGo_head_dispatch 8 (advanceTime st (coolWait st)) t
      (inCooldown_advance_coolWait st)
    rw [advanceTime_now] at h9
    have hnext : (stepIter st t).next = some t.retries := by rw [hstep]
    have hrun : runHead st t
        = ((runHeadGo 9 (stepIter st t).st' { t with retries := t.retries }).1,
           (stepIter st t).evs
             ++ (runHeadGo 9 (stepIter st t).st' { t with retries := t.retries }).2) := by
      show runHeadGo (9 + 1) st t = _
      rw [runHeadGo_succ, hnext]
    rw [hrun]
    dsimp only
    rw [hstep]
    dsimp only
    rw [dispatchRecs_append]
    have h0 : dispatchRecs [QEvent.sleepEv (coolWait st) st.now] = [] := rfl
    rw [h0, List.nil_append, hteta]
    exact h9

/-- C5 witness: with 25500 of 30000 tokens used (85%) mid-window, the
worker sleeps the 30000 ms until the window resets, keeps the head, ends
with a zero token counter, and first dispatches at the reset boundary. -/
theorem c5_witness :
    (stepIter stHot (tText 3)).evs = [QEvent.sleepEv 30000 30000]
    ∧ (stepIter stHot (tText 3)).next = some 0
    ∧ (stepIter stHot (tText 3)).st'.currentTokens = 0
    ∧ (dispatchRecs (runHead stHot (tText 3)).2).head? = some (3, 0, 60000) := by
  have h := c5_cooldown_defers_dispatch stHot (tText 3) rfl
  exact ⟨h.1, h.2.1, h.2.2.2.1, h.2.2.2.2.2.2⟩

/-! ## Claim C4: FIFO order, serialization, minimum spacing -/

lemma gddTask_nonThrowing (scene : SceneData) (provider : ℕ → PResult)
    (dur : ℕ → ℕ) (newId : ℕ) :
    NonThrowing (gddTask scene provider dur newId) := by
  intro n
  cases hp : provider n with
  | ok content =>
    exact ⟨ceilDiv3 (orTruthy content "Unable to analyze scene.").length,
      (orTruthy content "Unable to analyze scene.").trim,
      by simp [gddTask, gddTaskBehavior, hp]⟩
  | err e =>
    exact ⟨0, generateBasicDescription scene, by simp [gddTask, gddTaskBehavior, hp]⟩

/-- The value of an iteration dispatching a task whose thunk returns
normally. -/
lemma stepIter_ok_eq {st : QState} {t : Task} {tk : ℕ} {s : String}
    (hc : inCooldown st = false) (hb : t.behavior t.retries = TRes.ok tk s) :
    stepIter st t =
      ⟨advanceTime
          { advanceTime st (t.dur t.retries) with
            currentTokens := (advanceTime st (t.dur t.retries)).currentTokens + tk,
            backoffTime := halveBackoff (advanceTime st (t.dur t.retries)).backoffTime }
          1000,
       [QEvent.dispatch t.id t.retries st.now,
        QEvent.resolveEv t.id s (advanceTime st (t.dur t.retries)).now,
        QEvent.sleepEv 1000 (advanceTime st (t.dur t.retries)).now],
       none⟩ := by
  simp [stepIter, hc, hb]

/-- Worker facts for a non-throwing head dispatched from a non-cooldown
state: one dispatch at the current clock, one resolution right after it,
and at least the 1000 ms spacing sleep before the next head is looked at. -/
lemma runHeadGo_nonThrowing_facts (fuel : ℕ) (st : QState) (t : Task)
    (ht : NonThrowing t) (hc : inCooldown st = false) :
    dispatchRecs (runHeadGo (fuel + 1) st t).2 = [(t.id, t.retries, st.now)]
    ∧ dispatchResolvePattern (runHeadGo (fuel + 1) st t).2
        = [Sum.inl t.id, Sum.inr t.id]
    ∧ st.now + 1000 ≤ (runHeadGo (fuel + 1) st t).1.now := by
  rcases ht t.retries with ⟨tk, s, hb⟩
  have hstep := stepIter_ok_eq hc hb
  have hrun : runHeadGo (fuel + 1) st t = ((stepIter st t).st', (stepIter st t).evs) := by
    rw [runHeadGo_succ, hstep]
  rw [hrun, hstep]
  refine ⟨rfl, rfl, ?_⟩
  rw [advanceTime_now]
  have h1 : st.now ≤ (advanceTime st (t.dur t.retries)).now := by
    rw [advanceTime_now]; omega
  have h2 : (advanceTime st (t.dur t.retries)).now
      = ({ advanceTime st (t.dur t.retries) with
            currentTokens := (advanceTime st (t.dur t.retries)).currentTokens + tk,
            backoffTime :=
              halveBackoff (advanceTime st (t.dur t.retries)).backoffTime } : QState).now := rfl
  omega

/-- Worker facts for a non-throwing head from an arbitrary state, in terms
of the dispatch time `dispTime`. -/
lemma runHead_nonThrowing_facts (st : QState) (t : Task) (ht : NonThrowing t) :
    dispatchRecs (runHead st t).2 = [(t.id, t.retries, dispTime st)]
    ∧ dispatchResolvePattern (runHead st t).2 = [Sum.inl t.id, Sum.inr t.id]
    ∧ st.now ≤ dispTime st
    ∧ dispTime st + 1000 ≤ (runHead st t).1.now := by
  cases hc : inCooldown st with
  | false =>
    have h := runHeadGo_nonThrowing_facts 9 st t ht hc
    have hd : dispTime st = st.now := by simp [dispTime, hc]
    exact ⟨by rw [hd]; exact h.1, h.2.1, by omega, by rw [hd]; exact h.2.2⟩
  | true =>
    have hstep : stepIter st t =
        ⟨advanceTime st (coolWait st),
         [QEvent.sleepEv (coolWait st) st.now], some t.retries⟩ := by
      simp [stepIter, hc]
    have hteta : ({ t with retries := t.retries } : Task) = t := rfl
    have hrun : runHead st t
        = ((runHeadGo 9 (advanceTime st (coolWait st)) t).1,
           [QEvent.sleepEv (coolWait st) st.now]
             ++ (runHeadGo 9 (advanceTime st (coolWait st)) t).2) := by
      show runHeadGo (9 + 1) st t = _
      rw [runHeadGo_succ, hstep]
    have h := runHeadGo_nonThrowing_facts 8 (advanceTime st (coolWait st)) t ht
      (inCooldown_advance_coolWait st)
    have hd : dispTime st = (advanceTime st (coolWait st)).now := by
      simp [dispTime, hc]
    have hnow : (advanceTime st (coolWait st)).now = st.now + coolWait st :=
      advanceTime_now st _
    rw [hrun]
    dsimp only
    rw [dispatchRecs_append, dispatchResolvePattern_append]
    have e1 : dispatchRecs [QEvent.sleepEv (coolWait st) st.now] = [] := rfl
    have e2 : dispatchResolvePattern [QEvent.sleepEv (coolWait st) st.now] = [] := rfl
    rw [e1, e2, List.nil_append, List.nil_append, hd]
    exact ⟨h.1, h.2.1, by omega, h.2.2⟩

/-- The per-queue induction behind C4. -/
lemma processQueue_nonThrowing_facts (q : List Task) :
    ∀ st, (∀ t ∈ q, NonThrowing t) →
      ((dispatchRecs (processQueue st q).2).map (fun r => r.1) = q.map Task.id)
      ∧ dispatchResolvePattern (processQueue st q).2
          = (q.map fun t => [Sum.inl t.id, Sum.inr t.id]).flatten
      ∧ List.Chain' (fun a b => a + 1000 ≤ b)
          ((dispatchRecs (processQueue st q).2).map fun r => r.2.2)
      ∧ (∀ x ∈ (dispatchRecs (processQueue st q).2).map (fun r => r.2.2),
          st.now ≤ x ∧ x + 1000 ≤ (processQueue st q).1.now)
      ∧ st.now ≤ (processQueue st q).1.now := by
  induction q with
  | nil =>
    intro st h
    simp [processQueue, dispatchRecs, dispatchResolvePattern]
  | cons t rest ih =>
    intro st h
    have hT := runHead_nonThrowing_facts st t (h t (by simp))
    have hR := ih (runHead st t).1 (fun u hu => h u (by simp [hu]))
    have hpq : processQueue st (t :: rest)
        = ((processQueue (runHead st t).1 rest).1,
           (runHead st t).2 ++ (processQueue (runHead st t).1 rest).2) := rfl
    rw [hpq]
    dsimp only
    rw [dispatchRecs_append, dispatchResolvePattern_append, hT.1, hT.2.1]
    have hmono : st.now ≤ (processQueue (runHead st t).1 rest).1.now := by
      have := hR.2.2.2.2
      have h1 := hT.2.2.1
      have h2 := hT.2.2.2
      omega
    refine ⟨?_, ?_, ?_, ?_, hmono⟩
    · simp [hR.1]
    · simp [hR.2.1]
    · simp only [List.map_append, List.map_cons, List.map_nil, List.singleton_append]
      rw [List.chain'_cons']
      refine ⟨?_, hR.2.2.1⟩
      intro b hbmem
      have hb : b ∈ (dispatchRecs (processQueue (runHead st t).1 rest).2).map
          (fun r => r.2.2) := by
        exact List.mem_of_mem_head? hbmem
      have := (hR.2.2.2.1 b hb).1
      have h2 := hT.2.2.2
      omega
    · intro x hx
      simp only [List.map_append, List.map_cons, List.map_nil,
        List.singleton_append, List.mem_cons] at hx
      rcases hx with rfl | hx
      · exact ⟨hT.2.2.1, by have := hT.2.2.2; have := hR.2.2.2.2; omega⟩
      · have := hR.2.2.2.1 x hx
        have h1 := hT.2.2.1
        have h2 := hT.2.2.2
        exact ⟨by omega, this.2⟩

/-- C4: the queue worker, fed any queue of tasks of the shape produced by
`generateDetailedDescription` (their thunks never throw), dispatches the
external requests exactly once each, strictly in enqueue (FIFO) order;
dispatches and resolutions strictly alternate (each request is resolved
before the next is dispatched — at most one request in flight); and
consecutive dispatch times are at least 1000 ms apart. -/
theorem c4_fifo_serialized_spaced :
    (∀ (scene : SceneData) (provider : ℕ → PResult) (dur : ℕ → ℕ) (newId : ℕ),
        NonThrowing (gddTask scene provider dur newId))
    ∧ ∀ (st : QState) (q : List Task), (∀ t ∈ q, NonThrowing t) →
        ((dispatchRecs (processQueue st q).2).map (fun r => r.1) = q.map Task.id)
        ∧ dispatchResolvePattern (processQueue st q).2
            = (q.map fun t => [Sum.inl t.id, Sum.inr t.id]).flatten
        ∧ List.Chain' (fun a b => a + 1000 ≤ b)
            ((dispatchRecs (processQueue st q).2).map fun r => r.2.2) := by
  refine ⟨gddTask_nonThrowing, fun st q h => ?_⟩
  have hf := processQueue_nonThrowing_facts q st h
  exact ⟨hf.1, hf.2.1, hf.2.2.1⟩

/-- C4 witness: two tasks enqueued back-to-back at clock 0 are dispatched
in order 0, 1, each resolved before the next dispatch, and their dispatch
times sit 1000 ms apart. -/
theorem c4_witness :
    ((dispatchRecs (processQueue st0 [tText 0, tText 1]).2).map (fun r => r.1)
        = [0, 1])
    ∧ dispatchResolvePattern (processQueue st0 [tText 0, tText 1]).2
        = [Sum.inl 0, Sum.inr 0, Sum.inl 1, Sum.inr 1]
    ∧ List.Chain' (fun a b => a + 1000 ≤ b)
        ((dispatchRecs (processQueue st0 [tText 0, tText 1]).2).map fun r => r.2.2) := by
  have hnt : ∀ t ∈ [tText 0, tText 1], NonThrowing t := by
    intro t htm
    rcases List.mem_cons.mp htm with rfl | htm2
    · exact c4_fifo_serialized_spaced.1 sceneWithFrame provText (fun _ => 0) 0
    rcases List.mem_cons.mp htm2 with rfl | h3
    · exact c4_fifo_serialized_spaced.1 sceneWithFrame provText (fun _ => 0) 1
    · cases h3
  have h := c4_fifo_serialized_spaced.2 st0 [tText 0, tText 1] hnt
  exact ⟨h.1, h.2.1, h.2.2⟩

end VisionLang
